import Mathlib

/-!
Verification development for the MSU club-discovery RAG repository.

The Python sources are shallowly embedded: pure functions become Lean functions,
dictionary-shaped data becomes structures or association lists, Python floats
(which only ever hold exact small currency amounts parsed from digit strings)
become rationals, and the external collaborators (the Pinecone index, the
embedding libraries, the LLM backend, Python's `re`/`hashlib`/langchain) appear
as explicit function parameters or spec-modelled definitions, each marked as such.
-/

/-! ## Python string primitives used by the sources -/

/-- Fuel-driven worker for Python's `str.replace`: scans left to right, replacing
non-overlapping occurrences of `pat` by `rep` and continuing after the replacement.
One unit of fuel is spent per step; each step consumes at least one character, so
fuel equal to the input length suffices. -/
def pyReplaceGo (pat rep : List Char) : Nat → List Char → List Char
  | _, [] => []
  | 0, s => s
  | fuel+1, c :: rest =>
    if pat ≠ [] ∧ pat.isPrefixOf (c :: rest) then
      rep ++ pyReplaceGo pat rep fuel ((c :: rest).drop pat.length)
    else
      c :: pyReplaceGo pat rep fuel rest

/-- Python `s.replace(pat, rep)` on character lists (non-overlapping, left to right,
the replacement text is not rescanned). The sources only call it with non-empty
patterns. -/
def pyReplace (pat rep s : List Char) : List Char :=
  pyReplaceGo pat rep s.length s

/-- Python `str.title` on character lists: an alphabetic character is uppercased
when the previous character was not alphabetic and lowercased otherwise; other
characters pass through and reset the word boundary. (Python's notion of a cased
character is modelled as `Char.isAlpha`, which agrees on the ASCII file names the
repository processes.) The Boolean argument records whether the previous character
was alphabetic. -/
def pyTitle : Bool → List Char → List Char
  | _, [] => []
  | prevCased, c :: rest =>
    if c.isAlpha then
      (if prevCased then c.toLower else c.toUpper) :: pyTitle true rest
    else
      c :: pyTitle false rest

/-- Python `"sep".join(parts)`. -/
def pyJoin (sep : String) : List String → String
  | [] => ""
  | [x] => x
  | x :: y :: rest => x ++ sep ++ pyJoin sep (y :: rest)

/-! ## The regex scanners of `RAGEngine._extract_filters_from_query`
(src/rag_engine.py lines 106-120). Python's `re` engine is external to the
repository; the two concrete patterns of the source are hand-compiled here into
deterministic scanners. For both patterns greedy matching never needs to
backtrack (whitespace, `$` and digits are pairwise disjoint character classes and
nothing follows the capture in pattern 1), and the alternatives of each
alternation start with distinct characters, so the scanners below implement
exactly `re.search`'s leftmost-match semantics with `re.IGNORECASE`. -/

/-- Python re's whitespace class (ASCII whitespace characters). -/
def isWs (c : Char) : Bool :=
  c = ' ' ∨ c = '\t' ∨ c = '\n' ∨ c = '\r' ∨ c = '\x0b' ∨ c = '\x0c'

/-- Case-insensitive literal match: if `s` starts with `kw` (compared after
lowering `s`, `kw` being given in lowercase), return the remainder. -/
def matchCI : List Char → List Char → Option (List Char)
  | [], s => some s
  | _ :: _, [] => none
  | k :: ks, c :: cs => if c.toLower = k then matchCI ks cs else none

/-- Greedy `(\d+)` capture: the maximal leading digit run, converted to its
numeric value; `none` when the run is empty. -/
def readDigits (s : List Char) : Option Nat :=
  let ds := s.takeWhile (fun c => c.isDigit)
  if ds = [] then none
  else some (ds.foldl (fun acc c => acc * 10 + (c.toNat - '0'.toNat)) 0)

/-- The first dues pattern `(?:under|less than|below|max)\s*\$?(\d+)` tried at one
position. -/
def matchDues1At (s : List Char) : Option Nat :=
  let afterKw :=
    match matchCI "under".data s with
    | some r => some r
    | none =>
      match matchCI "less than".data s with
      | some r => some r
      | none =>
        match matchCI "below".data s with
        | some r => some r
        | none => matchCI "max".data s
  match afterKw with
  | none => none
  | some rest =>
    let rest := rest.dropWhile isWs
    let rest := match rest with
      | '$' :: r => r
      | r => r
    readDigits rest

/-- Python re.search for the first dues pattern: leftmost starting position wins. -/
def searchDues1 : List Char → Option Nat
  | [] => none
  | c :: rest =>
    match matchDues1At (c :: rest) with
    | some n => some n
    | none => searchDues1 rest

/-- The second dues pattern `\$(\d+)\s*(?:or less|max|maximum)` tried at one
position. ("maximum" is listed after "max" in the source's alternation, so it can
never be the alternative that matches; it is kept here for faithfulness.) -/
def matchDues2At (s : List Char) : Option Nat :=
  match s with
  | '$' :: rest =>
    match readDigits rest with
    | none => none
    | some n =>
      let after := (rest.drop (rest.takeWhile (fun c => c.isDigit)).length).dropWhile isWs
      if (matchCI "or less".data after).isSome ∨ (matchCI "max".data after).isSome ∨
          (matchCI "maximum".data after).isSome then
        some n
      else none
  | _ => none

/-- Python re.search for the second dues pattern. -/
def searchDues2 : List Char → Option Nat
  | [] => none
  | c :: rest =>
    match matchDues2At (c :: rest) with
    | some n => some n
    | none => searchDues2 rest

/-! ## Filters -/

/-- The metadata filter dictionary. Across the whole repository exactly two keys
are ever placed in it: `club_name` (by `query_with_metadata_filter`) and `dues`
(by both call sites), so the dictionary is embedded as a structure with one
optional field per possible key. -/
structure Filters where
  club_name : Option String
  dues : Option ℚ
deriving DecidableEq, Repr

/-- Python truthiness of the filter dictionary (`filters if filters else None`):
empty iff no key is present. -/
def Filters.isEmpty (f : Filters) : Bool :=
  f.club_name.isNone && f.dues.isNone

/-- Translation of `RAGEngine._extract_filters_from_query`
(src/rag_engine.py lines 93-120): the two dues patterns are tried in order, the
first that matches anywhere in the query supplies the `dues` value (`float` of a
digit capture is an exact integer-valued rational), and no match leaves the
filter dictionary empty. -/
def RAGEngine.extract_filters_from_query (query : String) : Filters :=
  match searchDues1 query.data with
  | some n => { club_name := none, dues := some (n : ℚ) }
  | none =>
    match searchDues2 query.data with
    | some n => { club_name := none, dues := some (n : ℚ) }
    | none => { club_name := none, dues := none }




/-! ## Document metadata (src/data_processing.py) -/

/-- The metadata dictionary built by `DocumentProcessor.extract_metadata_from_text`
(src/data_processing.py lines 138-146): all keys are always present; `dues` and
`last_updated` may hold Python `None`, embedded as `Option`. -/
structure DocMetadata where
  club_name : String
  dues : Option ℚ
  meeting_frequency : String
  membership_requirements : List String
  source_file : String
  last_updated : Option String
  contact_info : String
deriving DecidableEq, Repr

/-- Per-chunk metadata: the owning document's metadata plus the two position
fields added by `DocumentProcessor.chunk_text` (src/data_processing.py
lines 222-226). -/
structure ChunkMeta extends DocMetadata where
  chunk_index : Nat
  total_chunks : Nat
deriving DecidableEq, Repr

/-- A chunk object as produced by `DocumentProcessor.chunk_text`
(src/data_processing.py lines 220-227). The text type is a parameter so the same
translation serves string chunks and the token-level chunk model. -/
structure Chunk (σ : Type) where
  text : σ
  metadata : ChunkMeta
deriving DecidableEq, Repr

/-- Translation of the club-name fallback of
`DocumentProcessor.extract_metadata_from_text` (src/data_processing.py line 158):
`file_name.replace('.pdf', '').replace('_', ' ').title()`. Note the code removes
every occurrence of the literal substring ".pdf"; it does not strip a general
extension. -/
def fallback_club_name (file_name : String) : String :=
  ⟨pyTitle false (pyReplace "_".data " ".data (pyReplace ".pdf".data [] file_name.data))⟩

/-- Translation of the club-name branch of
`DocumentProcessor.extract_metadata_from_text` (src/data_processing.py
lines 148-158). The parameter `org_match` stands for the result of
`re.search` with the organization-name pattern over the document text (Python's
`re` engine is external to the repository): `some g` when the pattern matched
with first capture group `g`, `none` otherwise. On a match the code stores
`group(1).strip()`; otherwise the filename fallback. -/
def club_name_field (org_match : Option String) (file_name : String) : String :=
  match org_match with
  | some g => g.trim
  | none => fallback_club_name file_name

/-- Stated from the spec's words, for comparison with `fallback_club_name`
(spec §4.3 step 1): "derive from the filename: strip extension, replace
underscores with spaces, title-case". Stripping the extension removes the final
dot and everything after it, when a dot is present. -/
def specClubNameFromFile (file_name : String) : String :=
  let stem :=
    if '.' ∈ file_name.data then
      ((file_name.data.reverse.dropWhile (fun c => c ≠ '.')).drop 1).reverse
    else file_name.data
  ⟨pyTitle false (pyReplace "_".data " ".data stem)⟩



/-! ## The chunker

`DocumentProcessor.chunk_text` (src/data_processing.py lines 203-230) delegates
the actual splitting to langchain's `RecursiveCharacterTextSplitter`
(src/data_processing.py lines 39-44), a third-party library whose code is not
part of this repository. The splitter is therefore modelled from the spec
(§4.4), at the level of the token sequences the splitter's budget is measured
in. -/

/-- Modelled from the spec: the worker of the token-level splitter described in
§4.4. A chunk holds at most `cs` tokens, and each chunk after the first starts
with the trailing `cs - step` tokens of its predecessor (so consecutive chunk
starts are `step` tokens apart). Fuel is spent one unit per emitted chunk; each
step drops `step ≥ 1` tokens, so fuel equal to the token count suffices. -/
def splitGo (cs step : Nat) : Nat → List Nat → List (List Nat)
  | 0, t => [t]
  | fuel+1, t =>
    if t.length ≤ cs ∨ step = 0 then [t]
    else t.take cs :: splitGo cs step fuel (t.drop step)

/-- Modelled from the spec: the token-level chunking performed by langchain's
`RecursiveCharacterTextSplitter` (external to the repository), per spec §4.4:
token-budgeted chunks of at most `chunk_size` tokens, each chunk after the first
repeating the trailing `chunk_overlap` tokens of the previous chunk, and the
degenerate case "if cleaned text is empty or shorter than the overlap, produce
zero chunks". Tokens are represented as naturals (tiktoken token ids). -/
def splitTokens (chunk_size chunk_overlap : Nat) (toks : List Nat) : List (List Nat) :=
  if toks.length < chunk_overlap ∨ toks = [] then []
  else splitGo chunk_size (chunk_size - chunk_overlap) toks.length toks

/-- Translation of `DocumentProcessor.chunk_text` (src/data_processing.py
lines 214-230) given the splitter's output: `enumerate` assigns `chunk_index`,
and every chunk records `total_chunks = len(chunks)` alongside a copy of the
document metadata. -/
def DocumentProcessor.chunk_text {σ : Type} (splits : List σ) (m : DocMetadata) :
    List (Chunk σ) :=
  splits.enum.map fun is =>
    { text := is.2,
      metadata := { toDocMetadata := m, chunk_index := is.1, total_chunks := splits.length } }

/-- Concatenation of chunk texts in order, dropping the overlapping prefix (the
repeated trailing `ov` tokens of the previous chunk) of every non-first chunk —
the reconstruction operation of spec §8. -/
def reassemble (ov : Nat) : List (List Nat) → List Nat
  | [] => []
  | c :: rest => c ++ (rest.map (fun d => d.drop ov)).flatten




/-! ## Vector store (src/src/vector_store.py) -/

/-- A value stored in flattened Pinecone metadata: the repository stores Python
strings, floats (dues) and ints (chunk positions) there. -/
inductive MVal where
  | str (s : String)
  | float (q : ℚ)
  | int (n : ℤ)
deriving DecidableEq, Repr

/-- Modelled from the spec: `_generate_chunk_id` computes
`hashlib.md5(text.encode()).hexdigest()[:8]` (src/vector_store.py line 104);
`hashlib` is the Python standard library, external to the repository. The spec's
contract for this component (§3 IndexRecord, §8) is that the content hash is
"stable across re-runs of identical text, distinct for differing text", so it is
modelled as an injective stand-in on the chunk text. -/
def content_hash (text : String) : String :=
  text

/-- Translation of `VectorStore._generate_chunk_id` (src/vector_store.py
lines 88-106): `f"{club_name.replace(' ', '_')}_{chunk_idx}_{content_hash}"`,
where `club_name` and `chunk_idx` are read from the chunk metadata (the `.get`
defaults "unknown" and 0 never fire, since the embedded metadata always carries
both fields). -/
def VectorStore.generate_chunk_id (text : String) (metadata : ChunkMeta) : String :=
  ⟨pyReplace " ".data "_".data metadata.club_name.data⟩ ++ "_" ++
    toString metadata.chunk_index ++ "_" ++ content_hash text

/-- The record produced by `VectorStore.create_vector_record`
(src/vector_store.py lines 142-146). -/
structure VectorRecord where
  id : String
  text : String
  metadata : List (String × MVal)
deriving DecidableEq, Repr

/-- Translation of the `flat_metadata` dictionary literal of
`VectorStore.create_vector_record` (src/vector_store.py lines 127-136), before
the `None`-filtering step: eight fixed keys in insertion order, with `dues` and
`last_updated` possibly holding Python `None`. (The `.get` defaults for the
always-present metadata fields never fire.) -/
def VectorStore.flat_metadata_raw (text : String) (m : ChunkMeta) :
    List (String × Option MVal) :=
  [("text", some (.str text)),
   ("club_name", some (.str m.club_name)),
   ("dues", m.dues.map MVal.float),
   ("meeting_frequency", some (.str m.meeting_frequency)),
   ("source_file", some (.str m.source_file)),
   ("last_updated", m.last_updated.map MVal.str),
   ("chunk_index", some (.int m.chunk_index)),
   ("total_chunks", some (.int m.total_chunks))]

/-- Translation of `VectorStore.create_vector_record` (src/vector_store.py
lines 108-148): generate the deterministic id, flatten the metadata, drop the
keys whose value is `None` (line 139), and package id, text and metadata. -/
def VectorStore.create_vector_record (text : String) (m : ChunkMeta) : VectorRecord :=
  { id := VectorStore.generate_chunk_id text m,
    text := text,
    metadata :=
      (VectorStore.flat_metadata_raw text m).filterMap fun kv =>
        kv.2.map fun v => (kv.1, v) }

/-- A raw match as returned by Pinecone's `index.query` (already in the
dictionary format handled at src/vector_store.py lines 262-266). -/
structure RawMatch where
  id : String
  score : ℚ
  metadata : List (String × MVal)
deriving DecidableEq, Repr

/-- A formatted search result (src/vector_store.py lines 269-277). -/
structure RetrievedChunk where
  id : String
  score : ℚ
  text : String
  metadata : List (String × MVal)
deriving DecidableEq, Repr

/-- Python `metadata.get(k, d)` over the flattened-metadata association list,
with a string default; the values stored under the string-typed keys the
repository reads this way are always `MVal.str` (non-string values are rendered,
matching the f-string interpolation the lookups feed). -/
def getStrD (md : List (String × MVal)) (k d : String) : String :=
  match md.find? (fun kv => kv.1 == k) with
  | some kv =>
    match kv.2 with
    | .str s => s
    | .float q => toString q
    | .int n => toString n
  | none => d

/-- Python `top_k or config.TOP_K_RESULTS` (src/vector_store.py line 220 and
src/rag_engine.py line 192): `None` and the falsy value 0 both select the
configured default. -/
def resolveTopK (defaultK : Nat) : Option Nat → Nat
  | none => defaultK
  | some 0 => defaultK
  | some k => k

/-- Translation of `VectorStore.search` (src/vector_store.py lines 198-283).
External collaborators appear as parameters: `index_ok` is the truthiness of
`self.index` (line 216), `embed` is the query-embedding step (lines 225-248,
sentence-transformers or the hash fallback, both external libraries), and
`backend` is Pinecone's `index.query` (lines 251-256), receiving exactly the
data the code passes it — the query vector and the resolved `top_k`. The
`filters` argument is accepted but never forwarded anywhere. Each returned match
is kept only when its metadata dictionary is truthy (line 268), its `text` key
is lifted out (line 272) and removed from the reported metadata (lines 273-276).
The exception path (lines 281-283) returns the empty list and is outside the
modelled success path. -/
def VectorStore.search (index_ok : Bool) (embed : String → List ℚ)
    (backend : List ℚ → Nat → List RawMatch) (defaultK : Nat)
    (query : String) (top_k : Option Nat) (filters : Option Filters) :
    List RetrievedChunk :=
  if index_ok = false then []
  else
    let results := backend (embed query) (resolveTopK defaultK top_k)
    results.filterMap fun m =>
      if m.metadata = [] then none
      else
        some { id := m.id, score := m.score,
               text := getStrD m.metadata "text" "",
               metadata := m.metadata.filter fun kv => ¬ (kv.1 == "text") }

/-! ## RAG engine (src/src/rag_engine.py) -/

/-- A citation entry (src/rag_engine.py lines 81-88). -/
structure Citation where
  source_number : Nat
  club_name : String
  source_file : String
  relevance_score : ℚ
  text_snippet : String
  metadata : List (String × MVal)
deriving DecidableEq, Repr

/-- The context entry built for the chunk at 0-based position `idx`
(src/rag_engine.py lines 76-78): `f"[Source {idx + 1}] {club_name}:\n{text}\n"`. -/
def renderEntry (idx : Nat) (c : RetrievedChunk) : String :=
  "[Source " ++ toString (idx + 1) ++ "] " ++ getStrD c.metadata "club_name" "Unknown Club"
    ++ ":\n" ++ c.text ++ "\n"

/-- The citation built for the chunk at 0-based position `idx`
(src/rag_engine.py lines 81-88); the snippet is the first 150 characters of the
text, suffixed with an ellipsis when truncation happened. -/
def citationOf (idx : Nat) (c : RetrievedChunk) : Citation :=
  { source_number := idx + 1,
    club_name := getStrD c.metadata "club_name" "Unknown Club",
    source_file := getStrD c.metadata "source_file" "Unknown Source",
    relevance_score := c.score,
    text_snippet := if c.text.length > 150 then c.text.take 150 ++ "..." else c.text,
    metadata := c.metadata }

/-- Translation of `RAGEngine._build_context_from_chunks` (src/rag_engine.py
lines 49-91): empty input short-circuits to empty context and citations
(lines 60-61); otherwise one loop over `enumerate(chunks)` appends a rendered
context entry and a citation per chunk, and the context entries are joined with
a newline (line 90). -/
def RAGEngine.build_context_from_chunks (chunks : List RetrievedChunk) :
    String × List Citation :=
  if chunks = [] then ("", [])
  else
    (pyJoin "\n" (chunks.enum.map fun ic => renderEntry ic.1 ic.2),
     chunks.enum.map fun ic => citationOf ic.1 ic.2)

/-- The fixed no-results answer of `RAGEngine.query` (src/rag_engine.py
line 203). -/
def no_results_answer : String :=
  "I couldn't find any relevant information in the club database to answer your question. Please try rephrasing or ask about a specific club."

/-- Translation of `RAGEngine._build_system_prompt` is not needed verbatim by
any claim; the generation step only matters as an opaque call, so the prompt
builders are carried as the source's pure string construction. This is
`RAGEngine._build_user_prompt` (src/rag_engine.py lines 141-157). -/
def RAGEngine.build_user_prompt (query context : String) : String :=
  "Context from MSU club documents:\n" ++ context ++ "\n\nQuestion: " ++ query ++
    "\n\nPlease answer the question based on the context above. Cite your sources using [Source X] format when referencing specific information. If you cannot answer based on the context, say so."

/-- The filters computed at the top of `RAGEngine.query` (src/rag_engine.py
lines 185-189): extracted from the question when `apply_filters` is set,
otherwise the empty dictionary. -/
def RAGEngine.queryFilters (apply_filters : Bool) (question : String) : Filters :=
  if apply_filters then RAGEngine.extract_filters_from_query question
  else { club_name := none, dues := none }

/-- The filters argument passed on to `VectorStore.search` (src/rag_engine.py
line 196): `filters if filters else None`. -/
def filtersArg (f : Filters) : Option Filters :=
  if f.isEmpty then none else some f

/-- The response dictionary of `RAGEngine.query`; the `citations` key is absent
when `return_citations` is false on the generation path (lines 234-235), which
the `Option` records. -/
structure QueryResponse where
  answer : String
  citations : Option (List Citation)
  retrieved_chunks : List RetrievedChunk
  filters_applied : Filters
deriving DecidableEq, Repr

/-- Translation of `RAGEngine.query` (src/rag_engine.py lines 159-237). Injected
collaborators become parameters: `search` is `self.vector_store.search` applied
to a question, a resolved `top_k` and an optional filter dictionary, and
`generate` is `self.llm_client.generate` applied to the user prompt and the
system prompt (the configured temperature and max-tokens pass through
unchanged, so they are absorbed into `generate`). The returned Boolean records
whether the generation backend was invoked: the zero-match early return
(lines 201-207, the claim's no-results path) happens before the `generate` call
(line 218). -/
def RAGEngine.query (search : String → Nat → Option Filters → List RetrievedChunk)
    (generate : String → String → String) (system_prompt : String) (defaultK : Nat)
    (question : String) (top_k : Option Nat) (apply_filters return_citations : Bool) :
    QueryResponse × Bool :=
  let filters := RAGEngine.queryFilters apply_filters question
  let chunks := search question (resolveTopK defaultK top_k) (filtersArg filters)
  if chunks = [] then
    ({ answer := no_results_answer,
       citations := some [],
       retrieved_chunks := [],
       filters_applied := filters }, false)
  else
    let built := RAGEngine.build_context_from_chunks chunks
    let answer := generate (RAGEngine.build_user_prompt question built.1) system_prompt
    ({ answer := answer,
       citations := if return_citations then some built.2 else none,
       retrieved_chunks := chunks,
       filters_applied := filters }, true)

/-! ## Shared concrete data for witnesses -/

/-- A concrete document metadata record, shaped like the repository's own sample
document (src/vector_store.py lines 326-338). -/
def exDocMeta : DocMetadata :=
  { club_name := "Accessibility Club", dues := some 10, meeting_frequency := "weekly",
    membership_requirements := [], source_file := "accessibility_club.txt",
    last_updated := none, contact_info := "" }

/-- Chunk metadata over `exDocMeta` for position 0 of 2. -/
def exChunkMeta : ChunkMeta :=
  { toDocMetadata := exDocMeta, chunk_index := 0, total_chunks := 2 }

/-- The first chunk `DocumentProcessor.chunk_text` produces from the splits
`["a", "b"]` and `exDocMeta`. -/
def exChunkA : Chunk String :=
  { text := "a", metadata := exChunkMeta }

/-! ## Theorems -/

/-- C6: `_extract_filters_from_query` maps "clubs under $20" to a dues filter of
20.0 and "$15 or less" to 15.0; a query matched by neither dues pattern yields
the empty filter map; and the first pattern in the ordered pattern list that
matches determines the value. -/
theorem extract_filters_from_query_spec :
    RAGEngine.extract_filters_from_query "clubs under $20" =
        { club_name := none, dues := some 20 } ∧
    RAGEngine.extract_filters_from_query "$15 or less" =
        { club_name := none, dues := some 15 } ∧
    (∀ q : String, searchDues1 q.data = none → searchDues2 q.data = none →
      RAGEngine.extract_filters_from_query q = { club_name := none, dues := none }) ∧
    (∀ (q : String) (n : Nat), searchDues1 q.data = some n →
      RAGEngine.extract_filters_from_query q = { club_name := none, dues := some (n : ℚ) }) := by
  refine ⟨by decide, by decide, ?_, ?_⟩
  · intro q h1 h2
    simp [RAGEngine.extract_filters_from_query, h1, h2]
  · intro q n h1
    simp [RAGEngine.extract_filters_from_query, h1]

/-- Witness for C6: the first dues pattern matches "under $3" and the theorem
computes the corresponding filter map there. -/
theorem extract_filters_from_query_spec_witness :
    searchDues1 "under $3".data = some 3 ∧
    RAGEngine.extract_filters_from_query "under $3" = { club_name := none, dues := some 3 } :=
  ⟨by decide, extract_filters_from_query_spec.2.2.2 "under $3" 3 (by decide)⟩

/-- C9: for cleaned text that is empty or has fewer tokens than the configured
chunk overlap, the chunker produces zero chunks (and hence `chunk_text` produces
no chunk objects). -/
theorem chunker_degenerate (cs ov : Nat) (toks : List Nat) (m : DocMetadata)
    (h : toks = [] ∨ toks.length < ov) :
    splitTokens cs ov toks = [] ∧
    DocumentProcessor.chunk_text (splitTokens cs ov toks) m = [] := by
  have hs : splitTokens cs ov toks = [] := by
    unfold splitTokens
    rcases h with h | h
    · simp [h]
    · simp [h]
  exact ⟨hs, by simp [hs, DocumentProcessor.chunk_text]⟩

/-- Witness for C9 at the configured chunk overlap of 50 (config.py line 43) on a
one-token text. -/
theorem chunker_degenerate_witness :
    (([7] : List Nat) = [] ∨ ([7] : List Nat).length < 50) ∧
    splitTokens 300 50 [7] = [] ∧
    DocumentProcessor.chunk_text (splitTokens 300 50 [7]) exDocMeta = [] :=
  ⟨by decide, chunker_degenerate 300 50 [7] exDocMeta (by decide)⟩

/-- C8: the `chunk_index` values of the chunks built from one document are
exactly the contiguous range `[0, totalChunks)`, the chunk list's length equals
the split count, and every chunk records `total_chunks` equal to that shared
count with `chunk_index < total_chunks`. This holds for every splitter output,
`enumerate` and `len(chunks)` being all `chunk_text` uses. -/
theorem chunk_indices_contiguous {σ : Type} (splits : List σ) (m : DocMetadata) :
    ((DocumentProcessor.chunk_text splits m).map fun c => c.metadata.chunk_index) =
        List.range splits.length ∧
    (DocumentProcessor.chunk_text splits m).length = splits.length ∧
    ∀ c ∈ DocumentProcessor.chunk_text splits m,
      c.metadata.total_chunks = splits.length ∧
      c.metadata.chunk_index < c.metadata.total_chunks := by
  have hmap : ((DocumentProcessor.chunk_text splits m).map fun c => c.metadata.chunk_index) =
      List.range splits.length := by
    simp only [DocumentProcessor.chunk_text, List.map_map]
    exact List.enum_map_fst splits
  refine ⟨hmap, by simp [DocumentProcessor.chunk_text], ?_⟩
  intro c hc
  have htot : c.metadata.total_chunks = splits.length := by
    simp only [DocumentProcessor.chunk_text, List.mem_map] at hc
    obtain ⟨is, _, rfl⟩ := hc
    rfl
  refine ⟨htot, ?_⟩
  have hmem : c.metadata.chunk_index ∈
      ((DocumentProcessor.chunk_text splits m).map fun c => c.metadata.chunk_index) :=
    List.mem_map_of_mem _ hc
  rw [hmap] at hmem
  rw [htot]
  exact List.mem_range.mp hmem

/-- Witness for C8: the first chunk of a two-split document is a member of the
chunk list and satisfies the bound of the theorem. -/
theorem chunk_indices_contiguous_witness :
    exChunkA ∈ DocumentProcessor.chunk_text ["a", "b"] exDocMeta ∧
    exChunkA.metadata.total_chunks = 2 ∧
    exChunkA.metadata.chunk_index < exChunkA.metadata.total_chunks := by
  have h := (chunk_indices_contiguous ["a", "b"] exDocMeta).2.2 exChunkA (by decide)
  exact ⟨by decide, h.1, h.2⟩

/-- Dropping the overlap from every chunk `splitGo` emits, then flattening,
yields the input minus its first `ov` tokens: each chunk is a window of width at
most `cs` whose start advances by `cs - ov`, so the windows minus their `ov`-token
prefixes tile the input exactly. -/
lemma splitGo_flatten_drop (cs ov : Nat) (hov : ov ≤ cs) :
    ∀ (fuel : Nat) (t : List Nat), t.length ≤ fuel →
      ((splitGo cs (cs - ov) fuel t).map fun d => d.drop ov).flatten = t.drop ov := by
  intro fuel
  induction fuel with
  | zero =>
    intro t ht
    have h0 : t = [] := List.eq_nil_of_length_eq_zero (Nat.le_zero.mp ht)
    subst h0
    simp [splitGo]
  | succ n ih =>
    intro t ht
    rw [splitGo]
    by_cases hc : t.length ≤ cs ∨ cs - ov = 0
    · simp [hc]
    · rw [if_neg hc]
      push_neg at hc
      obtain ⟨h1, h2⟩ := hc
      rw [List.map_cons, List.flatten_cons,
        ih (t.drop (cs - ov)) (by rw [List.length_drop]; omega)]
      rw [List.drop_take, List.drop_drop]
      have hcs : cs - ov + ov = cs := by omega
      rw [hcs]
      have hx : t.drop cs = (t.drop ov).drop (cs - ov) := by
        rw [List.drop_drop]
        congr 1
        omega
      rw [hx, List.take_append_drop]

/-- One reassembly step over the chunks `splitGo` emits: the first chunk is kept
whole and the rest contribute their post-overlap tokens. -/
lemma reassemble_splitGo (cs ov : Nat) (hov : ov ≤ cs) (fuel : Nat) (t : List Nat)
    (hfuel : t.length ≤ fuel) :
    reassemble ov (splitGo cs (cs - ov) fuel t) = t := by
  cases fuel with
  | zero => simp [splitGo, reassemble]
  | succ n =>
    rw [splitGo]
    by_cases hc : t.length ≤ cs ∨ cs - ov = 0
    · simp [hc, reassemble]
    · rw [if_neg hc]
      push_neg at hc
      obtain ⟨h1, h2⟩ := hc
      rw [reassemble,
        splitGo_flatten_drop cs ov hov n (t.drop (cs - ov)) (by rw [List.length_drop]; omega)]
      rw [List.drop_drop]
      have hcs : cs - ov + ov = cs := by omega
      rw [hcs, List.take_append_drop]

/-- Counterexample to C3 as stated: under the spec's own degenerate rule
(§4.4: text shorter than the overlap produces zero chunks) a non-empty one-token
text at the configured chunk size 300 and overlap 50 (config.py lines 42-43)
yields no chunks at all, so the reassembled text is empty and does not
reconstruct the source. -/
theorem chunk_reassembly_counterexample :
    ([7] : List Nat) ≠ [] ∧
    reassemble 50
        ((DocumentProcessor.chunk_text (splitTokens 300 50 [7]) exDocMeta).map
          fun c => c.text) = [] ∧
    ([] : List Nat) ≠ [7] := by
  refine ⟨by decide, by decide, by decide⟩

/-- C3 amended: for every document whose cleaned text is non-empty AND has at
least `chunkOverlap` tokens, concatenating the chunk texts in chunk-index order
(which is the list order, by `chunk_indices_contiguous`), dropping the
overlapping `chunkOverlap`-token prefix of every non-first chunk, reconstructs
the source token sequence exactly. -/
theorem chunk_reassembly_amended (cs ov : Nat) (toks : List Nat) (m : DocMetadata)
    (h1 : ov < cs) (h2 : ov ≤ toks.length) (hne : toks ≠ []) :
    reassemble ov
        ((DocumentProcessor.chunk_text (splitTokens cs ov toks) m).map fun c => c.text) =
      toks := by
  have hmap : ((DocumentProcessor.chunk_text (splitTokens cs ov toks) m).map fun c => c.text) =
      splitTokens cs ov toks := by
    simp only [DocumentProcessor.chunk_text, List.map_map]
    exact List.enum_map_snd _
  rw [hmap]
  unfold splitTokens
  rw [if_neg (by push_neg; exact ⟨h2, hne⟩)]
  exact reassemble_splitGo cs ov (Nat.le_of_lt h1) toks.length toks (Nat.le_refl _)

/-- Witness for the amended C3 at chunk size 3, overlap 1, on five tokens. -/
theorem chunk_reassembly_amended_witness :
    (1 < 3 ∧ 1 ≤ ([1, 2, 3, 4, 5] : List Nat).length ∧ ([1, 2, 3, 4, 5] : List Nat) ≠ []) ∧
    reassemble 1
        ((DocumentProcessor.chunk_text (splitTokens 3 1 [1, 2, 3, 4, 5]) exDocMeta).map
          fun c => c.text) = [1, 2, 3, 4, 5] :=
  ⟨⟨by decide, by decide, by decide⟩,
    chunk_reassembly_amended 3 1 [1, 2, 3, 4, 5] exDocMeta (by decide) (by decide) (by decide)⟩

/-- Two strings with equal character data are equal. -/
lemma str_eq_of_data (a b : String) (h : a.data = b.data) : a = b := by
  cases a; cases b; exact congrArg String.mk h

/-- C5: the chunk id is a function of exactly the chunk text, the club name and
the chunk index (the other metadata fields do not influence it), so re-ingesting
an unchanged document reproduces every id; and with club name and chunk index
fixed, differing chunk texts receive differing ids. -/
theorem generate_chunk_id_deterministic :
    (∀ (t : String) (m₁ m₂ : ChunkMeta), m₁.club_name = m₂.club_name →
      m₁.chunk_index = m₂.chunk_index →
      VectorStore.generate_chunk_id t m₁ = VectorStore.generate_chunk_id t m₂) ∧
    (∀ (t₁ t₂ : String) (m₁ m₂ : ChunkMeta), m₁.club_name = m₂.club_name →
      m₁.chunk_index = m₂.chunk_index → t₁ ≠ t₂ →
      VectorStore.generate_chunk_id t₁ m₁ ≠ VectorStore.generate_chunk_id t₂ m₂) := by
  constructor
  · intro t m₁ m₂ h1 h2
    unfold VectorStore.generate_chunk_id
    rw [h1, h2]
  · intro t₁ t₂ m₁ m₂ h1 h2 hne heq
    apply hne
    unfold VectorStore.generate_chunk_id at heq
    rw [h1, h2] at heq
    have hd := congrArg String.data heq
    simp only [String.data_append, List.append_assoc, content_hash] at hd
    repeat replace hd := List.append_cancel_left hd
    exact str_eq_of_data _ _ hd

/-- Witness for C5: the same metadata with texts "a" and "b" gives distinct ids,
and equal inputs give equal ids. -/
theorem generate_chunk_id_deterministic_witness :
    VectorStore.generate_chunk_id "a" exChunkMeta = VectorStore.generate_chunk_id "a" exChunkMeta ∧
    VectorStore.generate_chunk_id "a" exChunkMeta ≠ VectorStore.generate_chunk_id "b" exChunkMeta :=
  ⟨generate_chunk_id_deterministic.1 "a" exChunkMeta exChunkMeta rfl rfl,
    generate_chunk_id_deterministic.2 "a" "b" exChunkMeta exChunkMeta rfl rfl (by decide)⟩

/-- Replacing one single character by another preserves the length of a
character list, whatever the fuel. -/
lemma pyReplaceGo_single_length (p r : Char) :
    ∀ (fuel : Nat) (s : List Char), (pyReplaceGo [p] [r] fuel s).length = s.length := by
  intro fuel
  induction fuel with
  | zero => intro s; cases s <;> simp [pyReplaceGo]
  | succ n ih =>
    intro s
    cases s with
    | nil => simp [pyReplaceGo]
    | cons c rest =>
      rw [pyReplaceGo]
      by_cases h : [p].isPrefixOf (c :: rest)
      · simp [h, ih]
      · simp [h, ih]

/-- Python `title()` preserves length: each character maps to one character. -/
lemma pyTitle_length : ∀ (b : Bool) (s : List Char), (pyTitle b s).length = s.length := by
  intro b s
  induction s generalizing b with
  | nil => simp [pyTitle]
  | cons c rest ih => by_cases h : c.isAlpha <;> simp [pyTitle, h, ih]

/-- Counterexample to C7 as stated: the code removes only the literal substring
".pdf" (src/data_processing.py line 158), so for a ".txt" file the extension is
not stripped — "math_club.txt" becomes "Math Club.Txt" while the claimed rule
(strip extension, underscores to spaces, title-case) gives "Math Club"; and for
the file name ".pdf" the fallback club name is the empty string, refuting
unconditional non-emptiness. -/
theorem fallback_club_name_counterexample :
    club_name_field none "math_club.txt" = "Math Club.Txt" ∧
    specClubNameFromFile "math_club.txt" = "Math Club" ∧
    club_name_field none "math_club.txt" ≠ specClubNameFromFile "math_club.txt" ∧
    club_name_field none ".pdf" = "" := by
  exact ⟨by decide, by decide, by decide, by decide⟩

/-- C7 amended: when the organization-name pattern does not match, the club name
is the file name with every occurrence of the literal ".pdf" removed (other
extensions are not stripped), underscores replaced by spaces, and title-cased;
it is non-empty whenever removing the ".pdf" occurrences leaves at least one
character. -/
theorem fallback_club_name_amended (file_name : String) :
    club_name_field none file_name =
      ⟨pyTitle false (pyReplace "_".data " ".data (pyReplace ".pdf".data [] file_name.data))⟩ ∧
    (pyReplace ".pdf".data [] file_name.data ≠ [] → club_name_field none file_name ≠ "") := by
  refine ⟨rfl, fun hne h0 => ?_⟩
  have hdata : pyTitle false
      (pyReplace "_".data " ".data (pyReplace ".pdf".data [] file_name.data)) = [] := by
    have hd := congrArg String.data h0
    simpa [club_name_field, fallback_club_name] using hd
  have hlen := pyTitle_length false
      (pyReplace "_".data " ".data (pyReplace ".pdf".data [] file_name.data))
  rw [hdata] at hlen
  have hrep : (pyReplace "_".data " ".data (pyReplace ".pdf".data [] file_name.data)).length =
      (pyReplace ".pdf".data [] file_name.data).length := by
    unfold pyReplace
    exact pyReplaceGo_single_length '_' ' ' _ _
  rw [hrep] at hlen
  exact hne (List.eq_nil_of_length_eq_zero hlen.symm)

/-- Witness for the amended C7 at the file name "x.pdf": removing ".pdf" leaves
"x", and the fallback club name "X" is non-empty. -/
theorem fallback_club_name_amended_witness :
    pyReplace ".pdf".data [] "x.pdf".data ≠ [] ∧ club_name_field none "x.pdf" ≠ "" :=
  ⟨by decide, (fallback_club_name_amended "x.pdf").2 (by decide)⟩

/-- The fixed key set of the flattened metadata built by `create_vector_record`
(src/vector_store.py lines 127-136). -/
def allowedMetadataKeys : List String :=
  ["text", "club_name", "dues", "meeting_frequency", "source_file", "last_updated",
   "chunk_index", "total_chunks"]

/-- C10: the flattened metadata of every record produced by
`create_vector_record` uses only the eight fixed keys; the `dues` and
`last_updated` keys are present exactly when their value is not `None` (`None`
values are omitted, never stored); and the `membership_requirements` and
`contact_info` fields extracted during ingestion never reach storage. -/
theorem create_vector_record_metadata_keys (text : String) (m : ChunkMeta) :
    (∀ kv ∈ (VectorStore.create_vector_record text m).metadata, kv.1 ∈ allowedMetadataKeys) ∧
    (∀ v : MVal, ("membership_requirements", v) ∉ (VectorStore.create_vector_record text m).metadata) ∧
    (∀ v : MVal, ("contact_info", v) ∉ (VectorStore.create_vector_record text m).metadata) ∧
    ((∃ v : MVal, ("dues", v) ∈ (VectorStore.create_vector_record text m).metadata) ↔
      m.dues ≠ none) ∧
    ((∃ v : MVal, ("last_updated", v) ∈ (VectorStore.create_vector_record text m).metadata) ↔
      m.last_updated ≠ none) := by
  rcases hd : m.dues with _ | d <;> rcases hl : m.last_updated with _ | u <;>
    simp [VectorStore.create_vector_record, VectorStore.flat_metadata_raw,
      allowedMetadataKeys, hd, hl]

/-- Witness for C10: in the concrete record over `exChunkMeta`, the club-name
entry is present and its key is among the allowed keys. -/
theorem create_vector_record_metadata_keys_witness :
    ("club_name", MVal.str "Accessibility Club") ∈
        (VectorStore.create_vector_record "T" exChunkMeta).metadata ∧
    "club_name" ∈ allowedMetadataKeys :=
  ⟨by decide,
    (create_vector_record_metadata_keys "T" exChunkMeta).1
      ("club_name", MVal.str "Accessibility Club") (by decide)⟩

/-- C2: whenever retrieval returns zero matches, `RAGEngine.query` returns the
fixed no-results answer with empty citations, empty retrieved chunks and the
extracted filters, and the generation backend is not invoked (the second
component of the result records whether `llm_client.generate` was called). -/
theorem query_no_results (search : String → Nat → Option Filters → List RetrievedChunk)
    (generate : String → String → String) (system_prompt : String) (defaultK : Nat)
    (question : String) (top_k : Option Nat) (apply_filters return_citations : Bool)
    (h : search question (resolveTopK defaultK top_k)
      (filtersArg (RAGEngine.queryFilters apply_filters question)) = []) :
    RAGEngine.query search generate system_prompt defaultK question top_k
        apply_filters return_citations =
      ({ answer := no_results_answer, citations := some [], retrieved_chunks := [],
         filters_applied := RAGEngine.queryFilters apply_filters question }, false) := by
  unfold RAGEngine.query
  simp [h]

/-- A retrieval stub that finds nothing, standing for an unavailable or empty
index. -/
def emptySearch : String → Nat → Option Filters → List RetrievedChunk :=
  fun _ _ _ => []

/-- Witness for C2: with a retrieval that returns no matches, a concrete query
produces exactly the no-results response and no generation call. -/
theorem query_no_results_witness :
    emptySearch "hi" (resolveTopK 5 none)
        (filtersArg (RAGEngine.queryFilters true "hi")) = [] ∧
    RAGEngine.query emptySearch (fun _ _ => "GENERATED") "SYS" 5 "hi" none true true =
      ({ answer := no_results_answer, citations := some [], retrieved_chunks := [],
         filters_applied := { club_name := none, dues := none } }, false) := by
  refine ⟨rfl, ?_⟩
  have h := query_no_results emptySearch (fun _ _ => "GENERATED") "SYS" 5 "hi" none true true rfl
  rw [h]
  decide

/-- The filter semantics the spec (and the claim) assign to `search`: equality
for the string filter `club_name` and less-than-or-equal for the numeric filter
`dues`, over the flattened metadata. Stated from the spec's words for comparison
with the behaviour of `VectorStore.search`. -/
def specSatisfiesFilters (f : Filters) (md : List (String × MVal)) : Bool :=
  (match f.club_name with
   | some n => getStrD md "club_name" "" == n
   | none => true) &&
  (match f.dues with
   | some q =>
     (match md.find? fun kv => kv.1 == "dues" with
      | some (_, .float d) => decide (d ≤ q)
      | some (_, .int d) => decide ((d : ℚ) ≤ q)
      | _ => false)
   | none => true)

/-- The filter map of the C1 failing input: club name "Accessibility Club",
maximum dues 20. -/
def demoFilters : Filters :=
  { club_name := some "Accessibility Club", dues := some 20 }

/-- A stored match that violates both filters of `demoFilters`. -/
def demoRawMatch : RawMatch :=
  { id := "Chess_Club_0_x", score := 9/10,
    metadata := [("text", .str "Chess Club meets Fridays; dues are $100."),
                 ("club_name", .str "Chess Club"), ("dues", .float 100)] }

/-- A backend standing for a Pinecone index holding only `demoRawMatch`. -/
def demoBackend : List ℚ → Nat → List RawMatch :=
  fun _ _ => [demoRawMatch]

/-- An arbitrary embedding stub (the vector plays no role in the property). -/
def demoEmbed : String → List ℚ :=
  fun _ => []

/-- C1 (code bug): `VectorStore.search` never forwards its `filters` argument to
the index query and applies no post-filtering, so the result is entirely
independent of the filters; on the concrete failing input a match whose
metadata violates both the club-name equality filter and the dues upper-bound
filter is nevertheless returned. -/
theorem search_ignores_metadata_filters :
    (∀ (index_ok : Bool) (embed : String → List ℚ)
        (backend : List ℚ → Nat → List RawMatch) (defaultK : Nat) (q : String)
        (top_k : Option Nat) (f₁ f₂ : Option Filters),
      VectorStore.search index_ok embed backend defaultK q top_k f₁ =
        VectorStore.search index_ok embed backend defaultK q top_k f₂) ∧
    (VectorStore.search true demoEmbed demoBackend 5 "clubs under $20" none
        (some demoFilters)).length = 1 ∧
    ∃ c ∈ VectorStore.search true demoEmbed demoBackend 5 "clubs under $20" none
        (some demoFilters),
      specSatisfiesFilters demoFilters c.metadata = false := by
  refine ⟨fun _ _ _ _ _ _ _ _ => rfl, by decide, by decide⟩

/-- The two branches of `_build_context_from_chunks` agree with the single
closed form: on the empty list the join and the map are both empty. -/
lemma build_context_eq (chunks : List RetrievedChunk) :
    RAGEngine.build_context_from_chunks chunks =
      (pyJoin "\n" (chunks.enum.map fun ic => renderEntry ic.1 ic.2),
       chunks.enum.map fun ic => citationOf ic.1 ic.2) := by
  cases chunks <;> simp [RAGEngine.build_context_from_chunks, pyJoin]

/-- A joined non-empty list of parts starts with its first part. -/
lemma pyJoin_cons_ex (sep x : String) (l : List String) :
    ∃ t : String, pyJoin sep (x :: l) = x ++ t := by
  cases l with
  | nil => exact ⟨"", by simp [pyJoin]⟩
  | cons y ys => exact ⟨sep ++ pyJoin sep (y :: ys), by simp [pyJoin, String.append_assoc]⟩

/-- C4: the citation list built by `_build_context_from_chunks` is parallel to
the input (same length; the entry at 0-based input position `i` is the citation
of the chunk at position `i`, carrying `source_number = i + 1` independently of
any score); the context is the in-order join of the rendered
`"[Source n] club:\n text\n"` entries, so with at least two chunks an occurrence
of "[Source 1]" precedes an occurrence of "[Source 2]"; and the empty input
yields empty context and citations. -/
theorem build_context_parallel_citations (chunks : List RetrievedChunk) :
    (RAGEngine.build_context_from_chunks chunks).2.length = chunks.length ∧
    (∀ i : Nat, (RAGEngine.build_context_from_chunks chunks).2[i]? =
      chunks[i]?.map (citationOf i)) ∧
    (∀ (i : Nat) (c : RetrievedChunk), (citationOf i c).source_number = i + 1) ∧
    ((RAGEngine.build_context_from_chunks chunks).1 =
      pyJoin "\n" (chunks.enum.map fun ic => renderEntry ic.1 ic.2)) ∧
    (2 ≤ chunks.length → ∃ a b : String, (RAGEngine.build_context_from_chunks chunks).1 =
      "[Source 1]" ++ a ++ ("[Source 2]" ++ b)) ∧
    RAGEngine.build_context_from_chunks [] = ("", []) := by
  refine ⟨?_, ?_, fun i c => rfl, ?_, ?_, by simp [RAGEngine.build_context_from_chunks]⟩
  · rw [build_context_eq]
    simp
  · intro i
    rw [build_context_eq]
    simp only [List.getElem?_map, List.getElem?_enum, Option.map_map]
    rfl
  · rw [build_context_eq]
  · intro h2
    match chunks, h2 with
    | c0 :: c1 :: rest, _ =>
      rw [build_context_eq]
      have henum : ((c0 :: c1 :: rest).enum.map fun ic => renderEntry ic.1 ic.2) =
          renderEntry 0 c0 :: renderEntry 1 c1 ::
            ((rest.enumFrom 2).map fun ic => renderEntry ic.1 ic.2) := rfl
      rw [henum, pyJoin]
      obtain ⟨t, ht⟩ := pyJoin_cons_ex "\n" (renderEntry 1 c1)
        ((rest.enumFrom 2).map fun ic => renderEntry ic.1 ic.2)
      rw [ht]
      refine ⟨" " ++ getStrD c0.metadata "club_name" "Unknown Club" ++ ":\n" ++ c0.text
          ++ "\n" ++ "\n",
        " " ++ getStrD c1.metadata "club_name" "Unknown Club" ++ ":\n" ++ c1.text
          ++ "\n" ++ t, ?_⟩
      have d1 : (toString (0 + 1) : String) = "1" := rfl
      have d2 : (toString (1 + 1) : String) = "2" := rfl
      apply String.ext
      simp [renderEntry, d1, d2, String.data_append, List.append_assoc]

/-- A first retrieved chunk for the C4 witness, with the lower score of the
two (ordering must not depend on scores). -/
def demoChunkA : RetrievedChunk :=
  { id := "a", score := 1/2, text := "TA", metadata := [("club_name", .str "A Club")] }

/-- A second retrieved chunk for the C4 witness, with the higher score. -/
def demoChunkB : RetrievedChunk :=
  { id := "b", score := 9/10, text := "TB", metadata := [("club_name", .str "B Club")] }

/-- Witness for C4 on a concrete two-chunk input: position 0 gets source number
1 although its score is lower, and the context carries "[Source 1]" before
"[Source 2]". -/
theorem build_context_parallel_citations_witness :
    (RAGEngine.build_context_from_chunks [demoChunkA, demoChunkB]).2[0]? =
      some (citationOf 0 demoChunkA) ∧
    (citationOf 0 demoChunkA).source_number = 1 ∧
    ∃ a b : String,
      (RAGEngine.build_context_from_chunks [demoChunkA, demoChunkB]).1 =
        "[Source 1]" ++ a ++ ("[Source 2]" ++ b) := by
  refine ⟨?_, ?_, ?_⟩
  · exact (build_context_parallel_citations [demoChunkA, demoChunkB]).2.1 0
  · exact (build_context_parallel_citations [demoChunkA, demoChunkB]).2.2.1 0 demoChunkA
  · exact (build_context_parallel_citations [demoChunkA, demoChunkB]).2.2.2.2.1 (by decide)
